import Mathlib

/-!
Shallow embedding of the two Reactyl extraction pipelines:
`scripts/enthalpy_md_to_json.py` (markdown line tokenizer) and
`Reactyl/scripts/parse_thermo_pdf_to_json.py` (PDF table cascade).
Python floats are modelled as exact rationals (all values involved are
short decimal numerals, where the two agree); fallible Python calls
(`float(...)`, `int(...)` under try/except) are modelled as `Option`.
-/

set_option maxRecDepth 8000

namespace Reactyl

/-- ASCII whitespace recognised by Python `str.strip` and the regex class. -/
def isPyWs (c : Char) : Bool :=
  c == ' ' || c == '\t' || c == '\n' || c == '\r' || c == Char.ofNat 11 || c == Char.ofNat 12

/-- Python `str.strip()` on a character list. -/
def pyStrip (l : List Char) : List Char :=
  ((l.dropWhile isPyWs).reverse.dropWhile isPyWs).reverse

/-- Value of a list of decimal digit characters. -/
def natOfDigits (l : List Char) : Nat :=
  l.foldl (fun n c => 10 * n + (c.toNat - 48)) 0

/-- Split an optional leading sign, returning its value as an integer. -/
def signSplitZ : List Char → ℤ × List Char
  | '+' :: r => (1, r)
  | '-' :: r => (-1, r)
  | l => (1, l)

/-- Powers of ten, by structural recursion so the kernel evaluates them. -/
def pow10 : Nat → Nat
  | 0 => 1
  | n + 1 => 10 * pow10 n

/-- Exact decimal number, the model of a parsed Python float: the value is
`num / 10 ^ k`. Python float truthiness/zero tests become `num = 0`. -/
structure Dec where
  num : ℤ
  k : Nat
  deriving DecidableEq, Repr

/-- Rational value of a parsed decimal. -/
def Dec.toRat (d : Dec) : ℚ :=
  (d.num : ℚ) / (pow10 d.k : ℚ)

/-- Build a `Dec` from sign, mantissa digits value, count of fractional
digits and a signed decimal exponent. -/
def mkDec (sgn : ℤ) (mant : Nat) (frac : Nat) (e : ℤ) : Dec :=
  let t : ℤ := e - (frac : ℤ)
  if 0 ≤ t then ⟨sgn * (mant : ℤ) * (pow10 t.toNat : ℤ), 0⟩
  else ⟨sgn * (mant : ℤ), (-t).toNat⟩

/-- Model of Python `float(s)` on finite decimal numerals:
optional surrounding whitespace, optional sign, digits with at most one
point (at least one digit total), optional `e`/`E` exponent. `none` models
the `ValueError` raised on anything else. -/
def pyFloatCore (l : List Char) : Option Dec :=
  let s := signSplitZ (pyStrip l)
  let d1 := s.2.takeWhile Char.isDigit
  let r1 := s.2.dropWhile Char.isDigit
  let fr : List Char × List Char :=
    match r1 with
    | c :: r =>
      if c = '.' then (r.takeWhile Char.isDigit, r.dropWhile Char.isDigit)
      else ([], r1)
    | [] => ([], r1)
  if d1.isEmpty && fr.1.isEmpty then none
  else
    let mant := natOfDigits (d1 ++ fr.1)
    match fr.2 with
    | [] => some (mkDec s.1 mant fr.1.length 0)
    | e :: r =>
      if e == 'e' || e == 'E' then
        let es : ℤ × List Char :=
          match r with
          | '+' :: r2 => ((1 : ℤ), r2)
          | '-' :: r2 => ((-1 : ℤ), r2)
          | r2 => ((1 : ℤ), r2)
        let d3 := es.2.takeWhile Char.isDigit
        if d3.isEmpty || !(es.2.dropWhile Char.isDigit).isEmpty then none
        else some (mkDec s.1 mant fr.1.length (es.1 * (natOfDigits d3 : ℤ)))
      else none

/-- Model of Python `int(s)`: optional surrounding whitespace, optional
sign, one or more digits; `none` models the raised `ValueError`. -/
def pyIntCore (l : List Char) : Option ℤ :=
  let s := signSplitZ (pyStrip l)
  let d := s.2.takeWhile Char.isDigit
  if d.isEmpty || !(s.2.dropWhile Char.isDigit).isEmpty then none
  else some (s.1 * (natOfDigits d : ℤ))

/-- `_safe_float` of `enthalpy_md_to_json.py`: `float(value)` under
try/except, no cleaning at all. The `Option String` input models a
possibly-`None` argument (`float(None)` raises, hence `none`). -/
def mdSafeFloat : Option String → Option Dec
  | none => none
  | some s => pyFloatCore s.data

/-- ASCII lowercase of a string, modelling Python `str.lower()`. -/
def pyLower (s : String) : String :=
  String.mk (s.data.map Char.toLower)

/-- The character class kept by `_safe_float`'s `re.sub(r"[^0-9+\-\.Ee]", "", t)`. -/
def keepNumChar (c : Char) : Bool :=
  c.isDigit || c == '+' || c == '-' || c == '.' || c == 'E' || c == 'e'

/-- Cleaning stage of the PDF `_safe_float`: drop thousands separators,
then every character outside the numeric/exponent class. -/
def pdfClean (l : List Char) : List Char :=
  (l.filter (fun c => c != ',')).filter keepNumChar

/-- `_safe_float` of `parse_thermo_pdf_to_json.py` on a string argument:
strip; empty means `None`; else remove separators and foreign characters
and parse. -/
def pdfSafeFloatS (s : String) : Option Dec :=
  let t := pyStrip s.data
  if t.isEmpty then none else pyFloatCore (pdfClean t)

/-- `_safe_float` of `parse_thermo_pdf_to_json.py` including its explicit
`if s is None: return None` branch. -/
def pdfSafeFloat : Option String → Option Dec
  | none => none
  | some s => pdfSafeFloatS s

/-- `token.split("*", 1)`: characters before the first `*`, characters after it. -/
def splitFirstStar : List Char → List Char × List Char
  | [] => ([], [])
  | c :: r =>
    if c = '*' then ([], r)
    else
      let p := splitFirstStar r
      (c :: p.1, p.2)

/-- The bare CAS pattern `^\d{2,7}-\d{2}-\d$` as a decidable check. -/
def isCasChars (l : List Char) : Bool :=
  let d1 := l.takeWhile Char.isDigit
  let r1 := l.dropWhile Char.isDigit
  decide (2 ≤ d1.length) && decide (d1.length ≤ 7) &&
    (match r1 with
     | '-' :: a :: b :: '-' :: c :: [] => a.isDigit && b.isDigit && c.isDigit
     | _ => false)

/-- `_split_cas_and_relative`: strip; if the token contains `*`, split at
the first `*` into a CAS prefix (empty prefix becomes absent) and a
relative rank parsed with `int` (parse failure keeps the prefix, drops the
rank); otherwise accept the whole token only when it matches the bare CAS
pattern. -/
def splitCasAndRelative (token : String) : Option String × Option ℤ :=
  let t := pyStrip token.data
  if '*' ∈ t then
    let p := splitFirstStar t
    let casS := pyStrip p.1
    let casO : Option String := if casS.isEmpty then none else some (String.mk casS)
    match pyIntCore p.2 with
    | some n => (casO, some n)
    | none => (casO, none)
  else if isCasChars t then (some (String.mk t), none)
  else (none, none)

/-- Split on runs of whitespace, dropping empty pieces: the combination of
`re.split(r"\s+", text.strip())` with the `if not t: continue` filter in
`_tokenize_loose`. -/
def splitWsAux : List Char → List Char → List (List Char)
  | [], cur => if cur.isEmpty then [] else [cur.reverse]
  | c :: r, cur =>
    if isPyWs c then
      if cur.isEmpty then splitWsAux r [] else cur.reverse :: splitWsAux r []
    else splitWsAux r (c :: cur)

/-- `re.split(r"(±)", t)` keeping the glyph as its own piece, with the
empty pieces dropped as in the `_tokenize_loose` loop. -/
def splitGlyphAux : List Char → List Char → List (List Char)
  | [], cur => if cur.isEmpty then [] else [cur.reverse]
  | c :: r, cur =>
    if c = '±' then
      (if cur.isEmpty then [] else [cur.reverse]) ++ ['±'] :: splitGlyphAux r []
    else splitGlyphAux r (c :: cur)

/-- `_tokenize_loose`: whitespace split, then any token containing `±`
that is not the glyph alone is split so the glyph is its own token. -/
def tokenizeLoose (s : String) : List String :=
  ((splitWsAux (pyStrip s.data) []).flatMap fun t =>
      if t ≠ ['±'] && ('±' ∈ t : Bool) then splitGlyphAux t [] else [t]).map String.mk

/-- Group 1 of `re.search(r"±\s*([-+]?\d+(?:\.\d+)?)", tok)` at the point
just after a `±`: optional whitespace, optional sign, digits, optional
fractional part. `none` when no number follows this glyph. -/
def uncNumAfter (l : List Char) : Option (List Char) :=
  let l0 := l.dropWhile isPyWs
  let sp : List Char × List Char :=
    match l0 with
    | c :: r => if c = '+' || c = '-' then ([c], r) else ([], l0)
    | [] => ([], [])
  let d1 := sp.2.takeWhile Char.isDigit
  if d1.isEmpty then none
  else
    match sp.2.dropWhile Char.isDigit with
    | '.' :: r2 =>
      let d2 := r2.takeWhile Char.isDigit
      if d2.isEmpty then some (sp.1 ++ d1) else some (sp.1 ++ d1 ++ '.' :: d2)
    | _ => some (sp.1 ++ d1)

/-- `re.search(r"±\s*([-+]?\d+(?:\.\d+)?)", tok)`: the group-1 text of the
leftmost match, scanning each `±` occurrence left to right. -/
def uncSearchG : List Char → Option (List Char)
  | [] => none
  | c :: r =>
    if c = '±' then
      match uncNumAfter r with
      | some g => some g
      | none => uncSearchG r
    else uncSearchG r

/-- An ASCII letter, the regex class `[A-Za-z]`. -/
def isAsciiLetter (c : Char) : Bool :=
  ('A' ≤ c && c ≤ 'Z') || ('a' ≤ c && c ≤ 'z')

/-- The units pattern `^[A-Za-z]+/mol$`. -/
def isUnitsToken (s : String) : Bool :=
  let l := s.data
  !(l.takeWhile isAsciiLetter).isEmpty &&
    l.dropWhile isAsciiLetter == ['/', 'm', 'o', 'l']

/-- Step 1 of `parse_record`: a non-numeric first token is consumed as the
structure, a numeric one leaves the cursor at 0. -/
def mdStructureStep (tokens : List String) : Option String × Nat :=
  match tokens with
  | [] => (none, 0)
  | t :: _ => if (pyFloatCore t.data).isSome then (none, 0) else (some t, 1)

/-- Steps 2/3 of `parse_record`: when a token remains, coerce it and
advance; otherwise leave the value absent and the cursor unmoved. -/
def mdNumStep (tokens : List String) (idx : Nat) : Option Dec × Nat :=
  match tokens.get? idx with
  | some t => (pyFloatCore t.data, idx + 1)
  | none => (none, idx)

/-- Step 4 of `parse_record` (uncertainty): `exact` marker, a lone `±`
followed by a numeric token, or a `±`-glued numeral; returns the kind, the
value and the new cursor. -/
def mdUncStep (tokens : List String) (idx : Nat) : Option String × Option Dec × Nat :=
  match tokens.get? idx with
  | none => (none, none, idx)
  | some tok =>
    if pyLower tok = "exact" then (some "exact", none, idx + 1)
    else if tok = "±" then
      match tokens.get? (idx + 1) with
      | some t2 =>
        match pyFloatCore t2.data with
        | some v => (some "numeric", some v, idx + 2)
        | none => (none, none, idx + 1)
      | none => (none, none, idx + 1)
    else if tok.startsWith "±" then
      match uncSearchG tok.data with
      | some g => (some "numeric", pyFloatCore g, idx + 1)
      | none => (none, none, idx + 1)
    else (none, none, idx)

/-- Step 5 of `parse_record` (units): only attempted when the uncertainty
kind is not `exact`; a token matching `^[A-Za-z]+/mol$` is consumed. -/
def mdUnitsStep (kind : Option String) (tokens : List String) (idx : Nat) :
    Option String × Nat :=
  if kind = some "exact" then (none, idx)
  else
    match tokens.get? idx with
    | some t => if isUnitsToken t then (some t, idx + 1) else (none, idx)
    | none => (none, idx)

/-- Step 6 of `parse_record` (molecular mass and its optional uncertainty,
with the same lone-glyph / glued-glyph rules as step 4). -/
def mdMassStep (tokens : List String) (idx : Nat) : Option Dec × Option Dec × Nat :=
  match tokens.get? idx with
  | none => (none, none, idx)
  | some t =>
    let mass := pyFloatCore t.data
    match tokens.get? (idx + 1) with
    | none => (mass, none, idx + 1)
    | some t2 =>
      if t2 = "±" then
        match tokens.get? (idx + 2) with
        | some t3 => (mass, pyFloatCore t3.data, idx + 3)
        | none => (mass, none, idx + 2)
      else if t2.startsWith "±" then
        (mass, (uncSearchG t2.data).bind (fun g => pyFloatCore g), idx + 2)
      else (mass, none, idx + 1)

/-- Step 7 of `parse_record` (CAS/relative): only when the cursor has not
consumed every token, the LAST token of the whole stream is inspected for
an embedded `*` and split. -/
def mdCasStep (tokens : List String) (idx : Nat) : Option String × Option ℤ :=
  if idx < tokens.length then
    match tokens.getLast? with
    | some last => if '*' ∈ last.data then splitCasAndRelative last else (none, none)
    | none => (none, none)
  else (none, none)

/-- All values decoded before the CAS step, with the final cursor. -/
structure MdPre where
  struc : Option String
  dH0 : Option Dec
  dH298 : Option Dec
  uncKind : Option String
  uncVal : Option Dec
  units : Option String
  mass : Option Dec
  massUnc : Option Dec
  cursor : Nat
  deriving DecidableEq, Repr

/-- The positional decode of steps 1-6 of `parse_record`, threading the
cursor through the step functions in source order. -/
def mdPreCas (tokens : List String) : MdPre :=
  let s1 := mdStructureStep tokens
  let s2 := mdNumStep tokens s1.2
  let s3 := mdNumStep tokens s2.2
  let s4 := mdUncStep tokens s3.2
  let s5 := mdUnitsStep s4.1 tokens s4.2.2
  let s6 := mdMassStep tokens s5.2
  { struc := s1.1, dH0 := s2.1, dH298 := s3.1, uncKind := s4.1, uncVal := s4.2.1,
    units := s5.1, mass := s6.1, massUnc := s6.2.1, cursor := s6.2.2 }

/-- The record dictionary returned by `parse_record` (the 9 keys the
markdown pipeline emits). -/
structure MdRecord where
  common_name : Option String
  struc : Option String
  enthalpy_of_formation_0K : Option Dec
  enthalpy_of_formation_298K : Option Dec
  uncertainty_value : Option Dec
  molecular_mass : Option Dec
  molecular_mass_uncertainty : Option Dec
  cas_rn : Option String
  relative_rank : Option ℤ
  deriving DecidableEq, Repr

/-- `parse_record(line1, line2)`: species name from the stripped first
line (empty strips to `None`), tokenize the second, return `None` on an
empty token stream, otherwise decode positionally. -/
def parseRecord (line1 line2 : String) : Option MdRecord :=
  let t1 := pyStrip line1.data
  let species : Option String := if t1.isEmpty then none else some (String.mk t1)
  let tokens := tokenizeLoose line2
  if tokens.isEmpty then none
  else
    let p := mdPreCas tokens
    let cr := mdCasStep tokens p.cursor
    some { common_name := species, struc := p.struc,
           enthalpy_of_formation_0K := p.dH0, enthalpy_of_formation_298K := p.dH298,
           uncertainty_value := p.uncVal, molecular_mass := p.mass,
           molecular_mass_uncertainty := p.massUnc, cas_rn := cr.1,
           relative_rank := cr.2 }

/-- A JSON value as emitted by either pipeline: a string (the empty-value
sentinel is `str ""`), a number, an integer, or JSON `null` (what a Python
`None` placed in a dict would serialize to). -/
inductive JVal where
  | str (s : String)
  | num (d : Dec)
  | int (n : ℤ)
  | null
  deriving DecidableEq, Repr

/-- Sentinel normalization for an optional string field. -/
def jStr : Option String → JVal
  | some s => .str s
  | none => .str ""

/-- Sentinel normalization for an optional numeric field. -/
def jNum : Option Dec → JVal
  | some d => .num d
  | none => .str ""

/-- Sentinel normalization for an optional integer field. -/
def jInt : Option ℤ → JVal
  | some n => .int n
  | none => .str ""

/-- The `parse_file` sanitization step: the 9-key markdown record object
in source key order, every `None` replaced by the empty string. -/
def mdSanitize (r : MdRecord) : List (String × JVal) :=
  [("common_name", jStr r.common_name),
   ("structure", jStr r.struc),
   ("enthalpy_of_formation_0K", jNum r.enthalpy_of_formation_0K),
   ("enthalpy_of_formation_298K", jNum r.enthalpy_of_formation_298K),
   ("uncertainty_value", jNum r.uncertainty_value),
   ("molecular_mass", jNum r.molecular_mass),
   ("molecular_mass_uncertainty", jNum r.molecular_mass_uncertainty),
   ("cas_rn", jStr r.cas_rn),
   ("relative_rank", jInt r.relative_rank)]

/-- What `parse_file` appends to `records` for one (species line, data
text) pair: `parse_record` then, when a record came back (a returned dict
is always truthy), sanitization. -/
def mdEmitPair (line1 line2 : String) : List (List (String × JVal)) :=
  match parseRecord line1 line2 with
  | some r => [mdSanitize r]
  | none => []

/-- Substring test, Python's `needle in hay`. -/
def strContains (hay needle : String) : Bool :=
  go hay.data
where
  go : List Char → Bool
    | [] => needle.data.isEmpty
    | c :: r => needle.data.isPrefixOf (c :: r) || go r

/-- `_normalize_header`: strip, lowercase, collapse internal whitespace
runs to single spaces. -/
def normalizeHeader (s : String) : String :=
  String.intercalate " "
    ((splitWsAux (pyStrip ((pyLower s).data)) []).map String.mk)

/-- The formula-column synonym test of `_find_columns`. -/
def isFormulaHeader (h : String) : Bool :=
  strContains h "formula" || h == "species" || h == "name"

/-- The state-column synonym test of `_find_columns`. -/
def isStateHeader (h : String) : Bool :=
  strContains h "state of matter" || h == "state" || strContains h "state"

/-- The enthalpy-column synonym test of `_find_columns`. -/
def isEnthalpyHeader (h : String) : Bool :=
  strContains h "enthalpy"

/-- The entropy-column synonym test of `_find_columns`. -/
def isEntropyHeader (h : String) : Bool :=
  strContains h "entropy"

/-- The Gibbs-column synonym test of `_find_columns`. -/
def isGibbsHeader (h : String) : Bool :=
  strContains h "gibbs" || strContains h "free energy"

/-- Index of the first element satisfying `p`, the effect of the
first-match-wins loop of `_find_columns` for one semantic column. -/
def findIdxO (p : String → Bool) : List String → Option Nat
  | [] => none
  | a :: l => if p a then some 0 else (findIdxO p l).map (· + 1)

/-- The column indices found by `_find_columns` (`-1` modelled as `none`). -/
structure Cols where
  formula : Option Nat
  state : Option Nat
  enthalpy : Option Nat
  entropy : Option Nat
  gibbs : Option Nat
  deriving DecidableEq, Repr

/-- `_find_columns` over the normalized header row. -/
def findColumns (header : List String) : Cols :=
  let norm := header.map normalizeHeader
  { formula := findIdxO isFormulaHeader norm,
    state := findIdxO isStateHeader norm,
    enthalpy := findIdxO isEnthalpyHeader norm,
    entropy := findIdxO isEntropyHeader norm,
    gibbs := findIdxO isGibbsHeader norm }

/-- `row[c]` guarded by `0 <= c < len(row)`, else the empty string. -/
def cellAt (row : List String) : Option Nat → String
  | some i => (row.get? i).getD ""
  | none => ""

/-- A row is skipped when no cell has non-whitespace content. -/
def isBlankRow (row : List String) : Bool :=
  row.all fun c => (pyStrip c.data).isEmpty

/-- The state-cell normalization of `_rows_to_records`: strip, lowercase,
exact lookups for gas/liquid/solid, substring test for aqueous. -/
def phaseOf (state : String) : String :=
  let st := String.mk ((pyStrip state.data).map Char.toLower)
  if st = "(g)" || st = "g" || st = "gas" then "gas"
  else if st = "(l)" || st = "l" || st = "liquid" then "liquid"
  else if st = "(s)" || st = "s" || st = "solid" then "solid"
  else if strContains st "aq" then "aqueous"
  else ""

/-- One data row of `_rows_to_records`: blank rows are dropped, otherwise
the 12-key record object in source key order. -/
def rowToRecord (cols : Cols) (row : List String) : Option (List (String × JVal)) :=
  if isBlankRow row then none
  else
    some [("common_name", .str ""),
          ("structure", .str (String.mk (pyStrip (cellAt row cols.formula).data))),
          ("enthalpy_of_formation_0K", .str ""),
          ("enthalpy_of_formation_298K", jNum (pdfSafeFloatS (cellAt row cols.enthalpy))),
          ("entropy_298K", jNum (pdfSafeFloatS (cellAt row cols.entropy))),
          ("gibbs_free_energy_298K", jNum (pdfSafeFloatS (cellAt row cols.gibbs))),
          ("phase", .str (phaseOf (cellAt row cols.state))),
          ("uncertainty_value", .str ""),
          ("molecular_mass", .str ""),
          ("molecular_mass_uncertainty", .str ""),
          ("cas_rn", .str ""),
          ("relative_rank", .str "")]

/-- `_rows_to_records`: empty table or missing formula column rejects the
whole table; otherwise each non-blank row becomes one record. -/
def rowsToRecords (table : List (List String)) : List (List (String × JVal)) :=
  match table with
  | [] => []
  | header :: rows =>
    let cols := findColumns header
    match cols.formula with
    | none => []
    | some _ => rows.filterMap (rowToRecord cols)

mutual

/-- `re.split(r"\s{2,}", ...)`, inside a segment: a single whitespace
character stays in the segment, two in a row start a delimiter run. -/
def sr2seg : List Char → List Char → List (List Char)
  | cur, [] => [cur.reverse]
  | cur, c :: rest =>
    if isPyWs c then
      match rest with
      | c2 :: rest2 =>
        if isPyWs c2 then cur.reverse :: sr2delim rest2
        else sr2seg (c :: cur) (c2 :: rest2)
      | [] => [(c :: cur).reverse]
    else sr2seg (c :: cur) rest
termination_by structural _cur l => l

/-- `re.split(r"\s{2,}", ...)`, inside a delimiter run: whitespace is
consumed, the first other character starts the next segment. -/
def sr2delim : List Char → List (List Char)
  | [] => [[]]
  | c :: rest => if isPyWs c then sr2delim rest else sr2seg [c] rest
termination_by structural l => l

end

/-- Split a line on runs of two or more whitespace characters. -/
def splitRuns2 (l : List Char) : List String :=
  (sr2seg [] l).map String.mk

/-- The numeric segments of a scraped line: segments after the first that
`_safe_float` accepts. -/
def scrapeNums (parts : List String) : List String :=
  (parts.drop 1).filter fun p => (pdfSafeFloatS p).isSome

/-- The record object built by the text-scrape fallback, in its source key
order. The enthalpy slot reflects `_safe_float(nums[0]) or ""`: a parsed
zero (falsy in Python) collapses to the sentinel. The entropy/gibbs slots
reflect the unguarded `_safe_float(nums[i])`, whose `None` (unreachable
after the filter) would serialize as JSON null. -/
def scrapeRecord (parts nums : List String) : List (String × JVal) :=
  [("common_name", .str ""),
   ("structure", .str (parts.headD "")),
   ("phase", .str ""),
   ("enthalpy_of_formation_0K", .str ""),
   ("enthalpy_of_formation_298K",
     match nums.head? with
     | some p =>
       match pdfSafeFloatS p with
       | some d => if d.num = 0 then .str "" else .num d
       | none => .str ""
     | none => .str ""),
   ("entropy_298K",
     match nums.get? 1 with
     | some p =>
       match pdfSafeFloatS p with
       | some d => .num d
       | none => .null
     | none => .str ""),
   ("gibbs_free_energy_298K",
     match nums.get? 2 with
     | some p =>
       match pdfSafeFloatS p with
       | some d => .num d
       | none => .null
     | none => .str ""),
   ("uncertainty_value", .str ""),
   ("molecular_mass", .str ""),
   ("molecular_mass_uncertainty", .str ""),
   ("cas_rn", .str ""),
   ("relative_rank", .str "")]

/-- One line of the text-scrape fallback of `parse_pdf_to_json`: strip,
split on 2+ whitespace runs, require at least 3 segments and at least one
numeric segment after the first, else skip the line. -/
def scrapeLine (ln : String) : Option (List (String × JVal)) :=
  let parts := splitRuns2 (pyStrip ln.data)
  if parts.length < 3 then none
  else
    let nums := scrapeNums parts
    if nums.isEmpty then none else some (scrapeRecord parts nums)

/-- The key list of the markdown-pipeline record object, in source order. -/
def mdKeys : List String :=
  ["common_name", "structure", "enthalpy_of_formation_0K",
   "enthalpy_of_formation_298K", "uncertainty_value", "molecular_mass",
   "molecular_mass_uncertainty", "cas_rn", "relative_rank"]

/-- The key list of the PDF table-path record object, in source order. -/
def pdfKeys : List String :=
  ["common_name", "structure", "enthalpy_of_formation_0K",
   "enthalpy_of_formation_298K", "entropy_298K", "gibbs_free_energy_298K",
   "phase", "uncertainty_value", "molecular_mass",
   "molecular_mass_uncertainty", "cas_rn", "relative_rank"]

/-- The key list of the text-scrape record object, in source order (same
key set as `pdfKeys`, different order). -/
def scrapeKeys : List String :=
  ["common_name", "structure", "phase", "enthalpy_of_formation_0K",
   "enthalpy_of_formation_298K", "entropy_298K", "gibbs_free_energy_298K",
   "uncertainty_value", "molecular_mass", "molecular_mass_uncertainty",
   "cas_rn", "relative_rank"]

/-- The character of one decimal digit. -/
def digitChar (n : Nat) : Char := Char.ofNat (48 + n)

/-- Decimal digits of a natural number, most significant first. -/
def natDigits (n : Nat) : List Char :=
  if _h : n < 10 then [digitChar n]
  else natDigits (n / 10) ++ [digitChar (n % 10)]
termination_by n
decreasing_by exact Nat.div_lt_self (by omega) (by omega)

/-- Exactly `k` fractional digits of `f`, most significant first. -/
def fracDigits : Nat → Nat → List Char
  | 0, _ => []
  | k + 1, f => digitChar (f / pow10 k % 10) :: fracDigits k f

/-- Characters that can occur in a rendered decimal numeral. -/
def isRenderChar (c : Char) : Bool := c.isDigit || c == '.' || c == '-'

/-- The positional decimal rendering of a parsed value: optional minus
sign, integer digits, and for k > 0 a point followed by exactly k
fractional digits (the string form of a coerced number). -/
def Dec.renderChars (d : Dec) : List Char :=
  let sgn : List Char := if d.num < 0 then ['-'] else []
  let i := d.num.natAbs / pow10 d.k
  let f := d.num.natAbs % pow10 d.k
  if d.k = 0 then sgn ++ natDigits i
  else sgn ++ natDigits i ++ '.' :: fracDigits d.k f

/-- The decimal rendering of a parsed value as a string. -/
def Dec.render (d : Dec) : String := String.mk d.renderChars

/-- Sentinel normalization of a string field is never JSON null. -/
theorem jStr_ne_null (o : Option String) : jStr o ≠ JVal.null := by
  cases o <;> simp [jStr]

/-- Sentinel normalization of a numeric field is never JSON null. -/
theorem jNum_ne_null (o : Option Dec) : jNum o ≠ JVal.null := by
  cases o <;> simp [jNum]

/-- Sentinel normalization of an integer field is never JSON null. -/
theorem jInt_ne_null (o : Option ℤ) : jInt o ≠ JVal.null := by
  cases o <;> simp [jInt]

/-- When no element satisfies the predicate, the first-match index search
finds nothing. -/
theorem findIdxO_eq_none {p : String → Bool} :
    ∀ {l : List String}, (∀ a ∈ l, p a = false) → findIdxO p l = none := by
  intro l h
  induction l with
  | nil => rfl
  | cons a t ih =>
    have ha : p a = false := h a (List.mem_cons_self a t)
    have ht : findIdxO p t = none := ih fun b hb => h b (List.mem_cons_of_mem a hb)
    simp [findIdxO, ha, ht]

/-- Every numeric segment kept by the scrape filter coerces successfully. -/
theorem scrapeNums_mem_isSome {parts : List String} {p : String}
    (h : p ∈ scrapeNums parts) : (pdfSafeFloatS p).isSome = true :=
  (List.mem_filter.mp h).2

theorem pow10_pos (n : Nat) : 0 < pow10 n := by
  induction n with
  | zero => simp [pow10]
  | succ n ih => simp [pow10]; omega

theorem digitChar_isDigit {n : Nat} (h : n < 10) : (digitChar n).isDigit = true := by
  interval_cases n <;> decide

theorem digitChar_toNat {n : Nat} (h : n < 10) : (digitChar n).toNat - 48 = n := by
  interval_cases n <;> decide

theorem natOfDigits_foldl :
    ∀ (l : List Char) (a : Nat),
      l.foldl (fun n c => 10 * n + (c.toNat - 48)) a =
        a * pow10 l.length + natOfDigits l := by
  intro l
  induction l with
  | nil => intro a; simp [natOfDigits, pow10]
  | cons c t ih =>
    intro a
    simp only [List.foldl_cons, List.length_cons]
    rw [ih]
    have h1 : natOfDigits (c :: t) = (c.toNat - 48) * pow10 t.length + natOfDigits t := by
      have h2 := ih (10 * 0 + (c.toNat - 48))
      simpa [natOfDigits] using h2
    rw [h1]
    simp [pow10]
    ring

theorem natOfDigits_cons (c : Char) (l : List Char) :
    natOfDigits (c :: l) = (c.toNat - 48) * pow10 l.length + natOfDigits l := by
  have h := natOfDigits_foldl l (10 * 0 + (c.toNat - 48))
  simpa [natOfDigits] using h

theorem natOfDigits_append (l1 l2 : List Char) :
    natOfDigits (l1 ++ l2) = natOfDigits l1 * pow10 l2.length + natOfDigits l2 := by
  show (l1 ++ l2).foldl _ 0 = _
  rw [List.foldl_append]
  exact natOfDigits_foldl l2 (natOfDigits l1)

theorem natDigits_ne_nil (n : Nat) : natDigits n ≠ [] := by
  unfold natDigits
  by_cases h : n < 10 <;> simp [h]

theorem natDigits_all_digit : ∀ n, ∀ c ∈ natDigits n, c.isDigit = true := by
  intro n
  induction n using Nat.strong_induction_on with
  | _ n ih =>
    intro c hc
    unfold natDigits at hc
    by_cases h : n < 10
    · simp [h] at hc; subst hc; exact digitChar_isDigit h
    · simp only [h, dite_false] at hc
      rcases List.mem_append.mp hc with hc | hc
      · exact ih (n / 10) (Nat.div_lt_self (by omega) (by omega)) c hc
      · simp at hc; subst hc; exact digitChar_isDigit (Nat.mod_lt _ (by omega))

theorem natOfDigits_natDigits : ∀ n, natOfDigits (natDigits n) = n := by
  intro n
  induction n using Nat.strong_induction_on with
  | _ n ih =>
    unfold natDigits
    by_cases h : n < 10
    · simp only [h, dite_true]
      have := digitChar_toNat h
      simp [natOfDigits]
      omega
    · simp only [h, dite_false]
      rw [natOfDigits_append]
      rw [ih (n / 10) (Nat.div_lt_self (by omega) (by omega))]
      have h10 : (digitChar (n % 10)).toNat - 48 = n % 10 :=
        digitChar_toNat (Nat.mod_lt _ (by omega))
      simp [natOfDigits, pow10, h10]
      omega

theorem fracDigits_length : ∀ k f, (fracDigits k f).length = k := by
  intro k
  induction k with
  | zero => intro f; rfl
  | succ k ih => intro f; simp [fracDigits, ih]

theorem fracDigits_all_digit : ∀ k f, ∀ c ∈ fracDigits k f, c.isDigit = true := by
  intro k
  induction k with
  | zero => intro f c hc; simp [fracDigits] at hc
  | succ k ih =>
    intro f c hc
    simp only [fracDigits, List.mem_cons] at hc
    rcases hc with rfl | hc
    · exact digitChar_isDigit (Nat.mod_lt _ (by omega))
    · exact ih f c hc

theorem natOfDigits_fracDigits : ∀ k f, natOfDigits (fracDigits k f) = f % pow10 k := by
  intro k
  induction k with
  | zero => intro f; simp [fracDigits, natOfDigits, pow10, Nat.mod_one]
  | succ k ih =>
    intro f
    have hstep : fracDigits (k + 1) f = digitChar (f / pow10 k % 10) :: fracDigits k f := rfl
    rw [hstep, natOfDigits_cons, fracDigits_length, ih]
    rw [digitChar_toNat (Nat.mod_lt _ (by omega))]
    have hp : pow10 (k + 1) = 10 * pow10 k := rfl
    rw [hp, Nat.mul_comm 10 (pow10 k), Nat.mod_mul]
    ring

theorem splitDigits {l1 l2 : List Char} (h1 : ∀ c ∈ l1, c.isDigit = true)
    (h2 : ∀ c, l2.head? = some c → c.isDigit = false) :
    (l1 ++ l2).takeWhile Char.isDigit = l1 ∧
    (l1 ++ l2).dropWhile Char.isDigit = l2 := by
  induction l1 with
  | nil =>
    simp only [List.nil_append]
    cases l2 with
    | nil => simp
    | cons a t =>
      have ha := h2 a rfl
      simp [List.takeWhile_cons, List.dropWhile_cons, ha]
  | cons a t ih =>
    have ha : a.isDigit = true := h1 a (by simp)
    have iht := ih (fun c hc => h1 c (by simp [hc]))
    simp [List.takeWhile_cons, List.dropWhile_cons, ha, iht.1, iht.2]

theorem takeWhile_all {l : List Char} (h : ∀ c ∈ l, c.isDigit = true) :
    l.takeWhile Char.isDigit = l ∧ l.dropWhile Char.isDigit = [] := by
  have h2 := @splitDigits l [] h (fun c hc => by simp at hc)
  rw [List.append_nil] at h2
  exact h2

theorem renderChar_not_ws {c : Char} (h : isRenderChar c = true) : isPyWs c = false := by
  by_contra hw
  rw [Bool.not_eq_false] at hw
  simp only [isPyWs, Bool.or_eq_true, beq_iff_eq] at hw
  rcases hw with ((((h1 | h1) | h1) | h1) | h1) | h1 <;> subst h1 <;>
    exact absurd h (by decide)

theorem renderChar_keep {c : Char} (h : isRenderChar c = true) : keepNumChar c = true := by
  simp only [isRenderChar, Bool.or_eq_true, beq_iff_eq] at h
  rcases h with (h | h) | h
  · simp [keepNumChar, h]
  · subst h; decide
  · subst h; decide

theorem renderChar_ne_comma {c : Char} (h : isRenderChar c = true) : (c != ',') = true := by
  by_contra hc
  simp at hc
  subst hc
  exact absurd h (by decide)

theorem isDigit_isRenderChar {c : Char} (h : c.isDigit = true) : isRenderChar c = true := by
  simp [isRenderChar, h]

theorem isDigit_ne_plus {c : Char} (h : c.isDigit = true) : c ≠ '+' := by
  intro hc; subst hc; exact absurd h (by decide)

theorem isDigit_ne_minus {c : Char} (h : c.isDigit = true) : c ≠ '-' := by
  intro hc; subst hc; exact absurd h (by decide)

theorem dropWhile_none {p : Char → Bool} {l : List Char}
    (h : ∀ c ∈ l, p c = false) : l.dropWhile p = l := by
  cases l with
  | nil => rfl
  | cons a t => simp [List.dropWhile_cons, h a (by simp)]

theorem pyStrip_eq_self {l : List Char} (h : ∀ c ∈ l, isPyWs c = false) : pyStrip l = l := by
  unfold pyStrip
  rw [dropWhile_none h]
  rw [dropWhile_none (fun c hc => h c (List.mem_reverse.mp hc))]
  exact List.reverse_reverse l

theorem pdfClean_eq_self {l : List Char} (h : ∀ c ∈ l, isRenderChar c = true) :
    pdfClean l = l := by
  unfold pdfClean
  rw [List.filter_eq_self.mpr (fun c hc => renderChar_ne_comma (h c hc))]
  rw [List.filter_eq_self.mpr (fun c hc => renderChar_keep (h c hc))]

theorem signSplitZ_no_sign {c : Char} {r : List Char} (h1 : c ≠ '+') (h2 : c ≠ '-') :
    signSplitZ (c :: r) = (1, c :: r) := by
  unfold signSplitZ
  split <;> simp_all

theorem renderChars_class (d : Dec) : ∀ c ∈ d.renderChars, isRenderChar c = true := by
  intro c hc
  unfold Dec.renderChars at hc
  by_cases hk : d.k = 0 <;> by_cases hs : d.num < 0 <;> simp [hk, hs] at hc
  · rcases hc with rfl | hc
    · decide
    · exact isDigit_isRenderChar (natDigits_all_digit _ c hc)
  · exact isDigit_isRenderChar (natDigits_all_digit _ c hc)
  · rcases hc with rfl | hc | rfl | hc
    · decide
    · exact isDigit_isRenderChar (natDigits_all_digit _ c hc)
    · decide
    · exact isDigit_isRenderChar (fracDigits_all_digit _ _ c hc)
  · rcases hc with hc | rfl | hc
    · exact isDigit_isRenderChar (natDigits_all_digit _ c hc)
    · decide
    · exact isDigit_isRenderChar (fracDigits_all_digit _ _ c hc)

theorem signSplitZ_minus (r : List Char) : signSplitZ ('-' :: r) = (-1, r) := rfl

theorem natDigits_isEmpty (n : Nat) : (natDigits n).isEmpty = false := by
  rcases h : natDigits n with _ | ⟨c, r⟩
  · exact absurd h (natDigits_ne_nil n)
  · rfl

theorem mkDec_k0 (s : ℤ) (m : Nat) : mkDec s m 0 0 = ⟨s * m, 0⟩ := by
  unfold mkDec
  rw [if_pos (by omega)]
  congr 1
  simp [pow10]

theorem mkDec_kpos (s : ℤ) (m k : Nat) (h : 0 < k) : mkDec s m k 0 = ⟨s * m, k⟩ := by
  unfold mkDec
  rw [if_neg (by omega)]
  congr 1
  omega

theorem pyFloatCore_from_body (sz : ℤ) (L : List Char) (n k f : Nat)
    (hstrip : pyStrip L = L)
    (hsign : signSplitZ L =
      (sz, natDigits n ++ (if k = 0 then [] else '.' :: fracDigits k f)))
    (hf : f < pow10 k) :
    pyFloatCore L = some (mkDec sz (n * pow10 k + f) k 0) := by
  have hdig := natDigits_all_digit n
  by_cases hk : k = 0
  · subst hk
    rw [if_pos rfl, List.append_nil] at hsign
    have hsplit := @splitDigits (natDigits n) [] hdig (fun c hc => by simp at hc)
    rw [List.append_nil] at hsplit
    have hfz : f = 0 := by simp [pow10] at hf; omega
    subst hfz
    unfold pyFloatCore
    simp only [hstrip, hsign]
    rw [hsplit.1, hsplit.2]
    simp [natDigits_isEmpty, natOfDigits_natDigits, pow10]
  · have hsplit := @splitDigits (natDigits n) ('.' :: fracDigits k f) hdig
      (fun c hc => by simp at hc; subst hc; decide)
    rw [if_neg hk] at hsign
    have hfrac := takeWhile_all (fracDigits_all_digit k f)
    unfold pyFloatCore
    simp only [hstrip, hsign]
    rw [hsplit.1, hsplit.2]
    simp [natDigits_isEmpty, hfrac.1, hfrac.2, natOfDigits_append,
      natOfDigits_natDigits, natOfDigits_fracDigits, fracDigits_length,
      Nat.mod_eq_of_lt hf]

theorem pyFloatCore_renderChars (d : Dec) : pyFloatCore d.renderChars = some d := by
  obtain ⟨num, k⟩ := d
  have hall := renderChars_class ⟨num, k⟩
  have hstrip : pyStrip (Dec.renderChars ⟨num, k⟩) = Dec.renderChars ⟨num, k⟩ :=
    pyStrip_eq_self (fun c hc => renderChar_not_ws (hall c hc))
  have hf : num.natAbs % pow10 k < pow10 k := Nat.mod_lt _ (pow10_pos k)
  have hsum : num.natAbs / pow10 k * pow10 k + num.natAbs % pow10 k = num.natAbs := by
    rw [Nat.mul_comm]
    exact Nat.div_add_mod _ _
  have hshape : Dec.renderChars ⟨num, k⟩ =
      (if num < 0 then ['-'] else []) ++ natDigits (num.natAbs / pow10 k) ++
        (if k = 0 then [] else '.' :: fracDigits k (num.natAbs % pow10 k)) := by
    unfold Dec.renderChars
    by_cases hk : k = 0 <;> simp [hk]
  by_cases hs : num < 0
  · have hsign : signSplitZ (Dec.renderChars ⟨num, k⟩) =
        (-1, natDigits (num.natAbs / pow10 k) ++
          (if k = 0 then [] else '.' :: fracDigits k (num.natAbs % pow10 k))) := by
      rw [hshape, if_pos hs]
      exact signSplitZ_minus _
    rw [pyFloatCore_from_body (-1) _ (num.natAbs / pow10 k) k
      (num.natAbs % pow10 k) hstrip hsign hf, hsum]
    have hnum : (-1 : ℤ) * num.natAbs = num := by omega
    by_cases hk : k = 0
    · subst hk
      rw [mkDec_k0, hnum]
    · rw [mkDec_kpos _ _ _ (by omega), hnum]
  · obtain ⟨c, rest, hnd⟩ : ∃ c rest, natDigits (num.natAbs / pow10 k) = c :: rest := by
      rcases h' : natDigits (num.natAbs / pow10 k) with _ | ⟨c, rest⟩
      · exact absurd h' (natDigits_ne_nil _)
      · exact ⟨c, rest, rfl⟩
    have hc : c.isDigit = true := natDigits_all_digit _ c (by rw [hnd]; simp)
    have hsign : signSplitZ (Dec.renderChars ⟨num, k⟩) =
        (1, natDigits (num.natAbs / pow10 k) ++
          (if k = 0 then [] else '.' :: fracDigits k (num.natAbs % pow10 k))) := by
      rw [hshape, if_neg hs, List.nil_append, hnd, List.cons_append,
        signSplitZ_no_sign (isDigit_ne_plus hc) (isDigit_ne_minus hc),
        ← List.cons_append, ← hnd]
    rw [pyFloatCore_from_body 1 _ (num.natAbs / pow10 k) k
      (num.natAbs % pow10 k) hstrip hsign hf, hsum]
    have hnum : (1 : ℤ) * num.natAbs = num := by omega
    by_cases hk : k = 0
    · subst hk
      rw [mkDec_k0, hnum]
    · rw [mkDec_kpos _ _ _ (by omega), hnum]

theorem renderChars_ne_nil (d : Dec) : d.renderChars ≠ [] := by
  unfold Dec.renderChars
  by_cases hk : d.k = 0 <;> by_cases hs : d.num < 0 <;>
    simp [hk, hs, natDigits_ne_nil]

theorem mdSafeFloat_render (d : Dec) : mdSafeFloat (some (Dec.render d)) = some d :=
  pyFloatCore_renderChars d

theorem pdfSafeFloat_render (d : Dec) : pdfSafeFloat (some (Dec.render d)) = some d := by
  have hall := renderChars_class d
  have hstrip : pyStrip d.renderChars = d.renderChars :=
    pyStrip_eq_self (fun c hc => renderChar_not_ws (hall c hc))
  have hne : (d.renderChars).isEmpty = false := by
    rcases h : d.renderChars with _ | ⟨a, t⟩
    · exact absurd h (renderChars_ne_nil d)
    · rfl
  show pdfSafeFloatS (Dec.render d) = some d
  unfold pdfSafeFloatS
  have hdata : (Dec.render d).data = d.renderChars := rfl
  rw [hdata, hstrip]
  simp [hne, pdfClean_eq_self hall, pyFloatCore_renderChars d]

/-- C2: the markdown record decoder applied to species-name line `H2` and
data text `H2 -241.8 0.0 ± 0.1 kJ/mol 2.016 7732-18-5*1` yields structure
`H2`, enthalpy_of_formation_0K `-241.8`, enthalpy_of_formation_298K `0.0`,
uncertainty_value `0.1`, molecular_mass `2.016`, cas_rn `7732-18-5` and
relative_rank `1`. -/
theorem c2_md_line_decode :
    parseRecord "H2" "H2 -241.8 0.0 ± 0.1 kJ/mol 2.016 7732-18-5*1" =
      some ⟨some "H2", some "H2", some ⟨-2418, 1⟩, some ⟨0, 1⟩, some ⟨1, 1⟩,
        some ⟨2016, 3⟩, none, some "7732-18-5", some 1⟩ ∧
    Dec.toRat ⟨-2418, 1⟩ = -241.8 ∧ Dec.toRat ⟨0, 1⟩ = 0.0 ∧
    Dec.toRat ⟨1, 1⟩ = 0.1 ∧ Dec.toRat ⟨2016, 3⟩ = 2.016 := by
  refine ⟨by decide, ?_, ?_, ?_, ?_⟩ <;> norm_num [Dec.toRat, pow10]

/-- C5: the CAS/relative splitter maps `50-00-0*3` to CAS `50-00-0` with
rank 3; `50-00-0` (no asterisk) matches the bare CAS pattern and keeps the
rank absent; `not-a-cas` yields both absent. -/
theorem c5_cas_splitter :
    splitCasAndRelative "50-00-0*3" = (some "50-00-0", some 3) ∧
    splitCasAndRelative "50-00-0" = (some "50-00-0", none) ∧
    isCasChars "50-00-0".data = true ∧
    splitCasAndRelative "not-a-cas" = (none, none) := by
  decide

/-- C3, counterexample: the two pipelines do not share one safe_float
leaf. The markdown `_safe_float` is a bare `float(...)` with no stripping,
so it coerces `"1,234.5 kJ"` to the absent value, not to `1234.5`, while
the PDF `_safe_float` coerces it to `1234.5`. -/
theorem c3_counterexample :
    mdSafeFloat (some "1,234.5 kJ") = none ∧
    pdfSafeFloat (some "1,234.5 kJ") = some ⟨12345, 1⟩ ∧
    Dec.toRat ⟨12345, 1⟩ = 1234.5 := by
  refine ⟨by decide, by decide, ?_⟩
  norm_num [Dec.toRat, pow10]

/-- C3, amended: the PDF pipeline's `_safe_float` strips thousands
separators and non-numeric/non-exponent characters before parsing, and
coerces `"1,234.5 kJ"` to `1234.5`; coercion is idempotent in both
pipelines — for EVERY already-coerced value, re-coercing its decimal
rendering (the string form a Python float presents, e.g. `str(1234.5)`)
yields the same value (note that coercing an already-numeric float is the
identity in the markdown leaf and exactly this string round trip in the
PDF leaf, whose first step is `str(s)`). The markdown `_safe_float` does
no cleaning and returns absent on `"1,234.5 kJ"`. -/
theorem c3_amended_pdf_coercion :
    pdfSafeFloat (some "1,234.5 kJ") = some ⟨12345, 1⟩ ∧
    Dec.toRat ⟨12345, 1⟩ = 1234.5 ∧
    (∀ s : String, (pyStrip s.data).isEmpty = false →
      pdfSafeFloat (some s) = pyFloatCore (pdfClean (pyStrip s.data))) ∧
    (∀ d : Dec, mdSafeFloat (some (Dec.render d)) = some d) ∧
    (∀ d : Dec, pdfSafeFloat (some (Dec.render d)) = some d) ∧
    mdSafeFloat (some "1234.5") = some ⟨12345, 1⟩ ∧
    mdSafeFloat (some "1,234.5 kJ") = none := by
  refine ⟨by decide, by norm_num [Dec.toRat, pow10], ?_, mdSafeFloat_render,
    pdfSafeFloat_render, by decide, by decide⟩
  intro s h
  simp [pdfSafeFloat, pdfSafeFloatS, h]

/-- C3 witness: the cleaning equation of the amended claim at the spec's
example input, and the universal idempotence round trip instantiated at
the already-coerced value `1234.5`. -/
theorem c3_amended_pdf_coercion_witness :
    pdfSafeFloat (some "1,234.5 kJ") =
      pyFloatCore (pdfClean (pyStrip "1,234.5 kJ".data)) ∧
    mdSafeFloat (some (Dec.render ⟨12345, 1⟩)) = some ⟨12345, 1⟩ ∧
    pdfSafeFloat (some (Dec.render ⟨12345, 1⟩)) = some ⟨12345, 1⟩ :=
  ⟨c3_amended_pdf_coercion.2.2.1 "1,234.5 kJ" (by decide),
   c3_amended_pdf_coercion.2.2.2.1 ⟨12345, 1⟩,
   c3_amended_pdf_coercion.2.2.2.2.1 ⟨12345, 1⟩⟩

/-- C4: both `_safe_float`s are total functions into `Option`: a `None`
argument, an empty string, or any parse failure produces the absent value
`none`; no input raises (totality of the embeddings). -/
theorem c4_safe_float_never_raises :
    mdSafeFloat none = none ∧ pdfSafeFloat none = none ∧
    mdSafeFloat (some "") = none ∧ pdfSafeFloat (some "") = none ∧
    (∀ s : String, pyFloatCore s.data = none → mdSafeFloat (some s) = none) ∧
    (∀ s : String, pyFloatCore (pdfClean (pyStrip s.data)) = none →
      pdfSafeFloat (some s) = none) := by
  refine ⟨rfl, rfl, by decide, by decide, fun s h => h, fun s h => ?_⟩
  simp only [pdfSafeFloat, pdfSafeFloatS]
  by_cases hb : (pyStrip s.data).isEmpty <;> simp [hb, h]

/-- C4 witness: both safe_floats at the unparseable string `abc`. -/
theorem c4_safe_float_never_raises_witness :
    mdSafeFloat (some "abc") = none ∧ pdfSafeFloat (some "abc") = none :=
  ⟨c4_safe_float_never_raises.2.2.2.2.1 "abc" (by decide),
   c4_safe_float_never_raises.2.2.2.2.2 "abc" (by decide)⟩

/-- C1, counterexample: a record emitted by the markdown pipeline has only
the 9-key schema — `phase` (and likewise `entropy_298K` and
`gibbs_free_energy_298K`) is a key of the §3 schema emitted by the PDF
pipeline but is missing from the markdown pipeline's objects, refuting the
claim that every emitted object has exactly the 12-key set. -/
theorem c1_counterexample :
    (mdEmitPair "X" "1 2").map (fun r => r.map Prod.fst) = [mdKeys] ∧
    "phase" ∉ mdKeys ∧ "entropy_298K" ∉ mdKeys ∧
    "gibbs_free_energy_298K" ∉ mdKeys ∧
    "phase" ∈ pdfKeys ∧ "entropy_298K" ∈ pdfKeys ∧
    "gibbs_free_energy_298K" ∈ pdfKeys := by
  decide

/-- C1, amended: every markdown-pipeline record object has exactly the
9-key schema (no entropy_298K, gibbs_free_energy_298K or phase) and every
PDF-pipeline record object (table path and text-scrape path) has exactly
the 12-key schema of §3; in all cases every absent value is the
empty-string sentinel, never a missing key and never JSON null. -/
theorem c1_amended_fixed_key_sets :
    (∀ r : MdRecord, (mdSanitize r).map Prod.fst = mdKeys ∧
      ∀ p ∈ mdSanitize r, p.2 ≠ JVal.null) ∧
    (∀ (table : List (List String)) r, r ∈ rowsToRecords table →
      r.map Prod.fst = pdfKeys ∧ ∀ p ∈ r, p.2 ≠ JVal.null) ∧
    (∀ (ln : String) r, scrapeLine ln = some r →
      r.map Prod.fst = scrapeKeys ∧ ∀ p ∈ r, p.2 ≠ JVal.null) ∧
    (∀ k, k ∈ scrapeKeys ↔ k ∈ pdfKeys) := by
  refine ⟨?_, ?_, ?_, ?_⟩
  · intro r
    refine ⟨rfl, ?_⟩
    intro p hp
    simp only [mdSanitize, List.mem_cons, List.not_mem_nil, or_false] at hp
    rcases hp with h | h | h | h | h | h | h | h | h <;> subst h <;>
      first
        | exact jStr_ne_null _
        | exact jNum_ne_null _
        | exact jInt_ne_null _
  · intro table r hr
    match table with
    | [] => simp [rowsToRecords] at hr
    | header :: rows =>
      simp only [rowsToRecords] at hr
      rcases hc : (findColumns header).formula with _ | i <;> rw [hc] at hr
      · simp at hr
      · rcases List.mem_filterMap.mp hr with ⟨row, _, hrow⟩
        simp only [rowToRecord] at hrow
        by_cases hb : isBlankRow row
        · simp [hb] at hrow
        · rw [if_neg (by simp [hb])] at hrow
          rcases Option.some_inj.mp hrow with rfl
          refine ⟨rfl, ?_⟩
          intro p hp
          simp only [List.mem_cons, List.not_mem_nil, or_false] at hp
          rcases hp with h|h|h|h|h|h|h|h|h|h|h|h <;> subst h <;>
            first
              | exact jNum_ne_null _
              | simp
  · intro ln r h
    simp only [scrapeLine] at h
    by_cases h3 : (splitRuns2 (pyStrip ln.data)).length < 3
    · simp [h3] at h
    · rw [if_neg h3] at h
      by_cases hn : (scrapeNums (splitRuns2 (pyStrip ln.data))).isEmpty
      · simp [hn] at h
      · rw [if_neg (by simp [hn])] at h
        rcases Option.some_inj.mp h with rfl
        refine ⟨rfl, ?_⟩
        intro p hp
        simp only [scrapeRecord, List.mem_cons, List.not_mem_nil, or_false] at hp
        rcases hp with h|h|h|h|h|h|h|h|h|h|h|h <;> subst h
        · simp
        · simp
        · simp
        · simp
        · rcases hh : (scrapeNums (splitRuns2 (pyStrip ln.data))).head? with _ | p0
          · simp [hh]
          · have hsome := scrapeNums_mem_isSome
              (List.mem_of_mem_head? (Option.mem_def.mpr hh))
            rcases hs : pdfSafeFloatS p0 with _ | d
            · rw [hs] at hsome; simp at hsome
            · by_cases h0 : d.num = 0 <;> simp [hh, hs, h0]
        · rcases hh : (scrapeNums (splitRuns2 (pyStrip ln.data)))[1]? with _ | p1
          · simp [hh]
          · have hsome := scrapeNums_mem_isSome (List.getElem?_mem hh)
            rcases hs : pdfSafeFloatS p1 with _ | d
            · rw [hs] at hsome; simp at hsome
            · simp [hh, hs]
        · rcases hh : (scrapeNums (splitRuns2 (pyStrip ln.data)))[2]? with _ | p2
          · simp [hh]
          · have hsome := scrapeNums_mem_isSome (List.getElem?_mem hh)
            rcases hs : pdfSafeFloatS p2 with _ | d
            · rw [hs] at hsome; simp at hsome
            · simp [hh, hs]
        · simp
        · simp
        · simp
        · simp
        · simp
  · intro k
    simp only [scrapeKeys, pdfKeys, List.mem_cons, List.not_mem_nil, or_false]
    tauto

/-- C1 witness: the amended key-set invariants at one concrete table row
and one concrete scraped line. -/
theorem c1_amended_fixed_key_sets_witness :
    (rowsToRecords [["Formula"], ["CO2"]]).headD [] ∈
        rowsToRecords [["Formula"], ["CO2"]] ∧
    ((rowsToRecords [["Formula"], ["CO2"]]).headD []).map Prod.fst = pdfKeys ∧
    ((scrapeLine "CO2  -393.5  213.8").getD []).map Prod.fst = scrapeKeys :=
  ⟨by decide,
   (c1_amended_fixed_key_sets.2.1 [["Formula"], ["CO2"]]
      ((rowsToRecords [["Formula"], ["CO2"]]).headD []) (by decide)).1,
   (c1_amended_fixed_key_sets.2.2.1 "CO2  -393.5  213.8"
      ((scrapeLine "CO2  -393.5  213.8").getD []) (by decide)).1⟩

/-- C9, counterexample: decoding with a null (empty) species-name line and
data text `1 2` does emit a record — the dict returned by `parse_record`
is always truthy, so the `if rec:` gate keeps it, and the null name is
sanitized to the empty sentinel instead of the record being dropped. -/
theorem c9_counterexample :
    mdEmitPair "" "1 2" =
      [[("common_name", JVal.str ""), ("structure", JVal.str ""),
        ("enthalpy_of_formation_0K", JVal.num ⟨1, 0⟩),
        ("enthalpy_of_formation_298K", JVal.num ⟨2, 0⟩),
        ("uncertainty_value", JVal.str ""), ("molecular_mass", JVal.str ""),
        ("molecular_mass_uncertainty", JVal.str ""), ("cas_rn", JVal.str ""),
        ("relative_rank", JVal.str "")]] := by
  decide

/-- C9, amended: the markdown pipeline drops a record exactly when the
field-data token stream is empty; a null species-name line is not dropped
but yields a record whose common_name is the empty sentinel. -/
theorem c9_amended_drop_only_empty_tokens :
    ∀ line1 line2 : String,
      (mdEmitPair line1 line2 = [] ↔ tokenizeLoose line2 = []) ∧
      ((pyStrip line1.data).isEmpty = true →
        ∀ r ∈ mdEmitPair line1 line2,
          r.head? = some ("common_name", JVal.str "")) := by
  intro line1 line2
  constructor
  · simp only [mdEmitPair, parseRecord]
    rcases htok : tokenizeLoose line2 with _ | ⟨t, ts⟩
    · simp
    · simp
  · intro h1 r hr
    simp only [mdEmitPair, parseRecord] at hr
    rcases htok : tokenizeLoose line2 with _ | ⟨t, ts⟩ <;> rw [htok] at hr
    · simp at hr
    · rw [if_neg (by simp)] at hr
      simp only [List.mem_singleton] at hr
      subst hr
      simp [mdSanitize, h1, jStr]

/-- C9 witness: the amended statement at a null species line with data
`1 2` (record kept, name sanitized) and at an empty data text (record
dropped). -/
theorem c9_amended_drop_only_empty_tokens_witness :
    mdEmitPair "X" "" = [] ∧
    ((mdEmitPair "" "1 2").headD []).head? = some ("common_name", JVal.str "") :=
  ⟨(c9_amended_drop_only_empty_tokens "X" "").1.mpr (by decide),
   (c9_amended_drop_only_empty_tokens "" "1 2").2 (by decide)
      ((mdEmitPair "" "1 2").headD []) (by decide)⟩

/-- C6, counterexample: with data text `1 2 50-00-0*3` the positional
steps consume all 3 tokens (the cursor ends at 3), and although the last
token of the stream contains an embedded `*` and splits into CAS
`50-00-0` with rank 3, the decoder leaves both CAS fields absent — the
CAS step runs only while the cursor is strictly inside the stream. -/
theorem c6_counterexample :
    (parseRecord "X" "1 2 50-00-0*3").map (fun r => (r.cas_rn, r.relative_rank)) =
      some (none, none) ∧
    (tokenizeLoose "1 2 50-00-0*3").getLast? = some "50-00-0*3" ∧
    ('*' ∈ "50-00-0*3".data) ∧
    splitCasAndRelative "50-00-0*3" = (some "50-00-0", some 3) ∧
    (mdPreCas (tokenizeLoose "1 2 50-00-0*3")).cursor = 3 ∧
    (tokenizeLoose "1 2 50-00-0*3").length = 3 := by
  decide

/-- C6, amended: when the positional cursor stops strictly before the end
of the token stream and the last token contains an embedded `*`, the
decoder splits that last token into CAS prefix and relative-rank suffix;
but when the positional steps have consumed every token, both CAS fields
stay absent even if the last token contains `*`. -/
theorem c6_amended_cas_guarded :
    ∀ line1 line2 rec, parseRecord line1 line2 = some rec →
      ∀ last, (tokenizeLoose line2).getLast? = some last → '*' ∈ last.data →
        ((mdPreCas (tokenizeLoose line2)).cursor < (tokenizeLoose line2).length →
          (rec.cas_rn, rec.relative_rank) = splitCasAndRelative last) ∧
        ((tokenizeLoose line2).length ≤ (mdPreCas (tokenizeLoose line2)).cursor →
          rec.cas_rn = none ∧ rec.relative_rank = none) := by
  intro line1 line2 rec h last hlast hstar
  simp only [parseRecord] at h
  by_cases he : (tokenizeLoose line2).isEmpty
  · rw [if_pos he] at h; cases h
  · rw [if_neg he] at h
    rcases Option.some_inj.mp h with rfl
    constructor
    · intro hlt
      show ((mdCasStep _ _).1, (mdCasStep _ _).2) = _
      simp [mdCasStep, hlt, hlast, hstar]
    · intro hge
      have hnl : ¬(mdPreCas (tokenizeLoose line2)).cursor < (tokenizeLoose line2).length :=
        Nat.not_lt.mpr hge
      constructor
      · show (mdCasStep _ _).1 = none
        simp [mdCasStep, hnl]
      · show (mdCasStep _ _).2 = none
        simp [mdCasStep, hnl]

/-- C6 witness: the amended guarded-CAS rule applied at the worked example
line, where the cursor stops at 7 of 8 tokens and the last token splits. -/
theorem c6_amended_cas_guarded_witness :
    ((some "7732-18-5" : Option String), (some 1 : Option ℤ)) =
      splitCasAndRelative "7732-18-5*1" :=
  (c6_amended_cas_guarded "H2" "H2 -241.8 0.0 ± 0.1 kJ/mol 2.016 7732-18-5*1"
      ⟨some "H2", some "H2", some ⟨-2418, 1⟩, some ⟨0, 1⟩, some ⟨1, 1⟩,
        some ⟨2016, 3⟩, none, some "7732-18-5", some 1⟩
      (by decide) "7732-18-5*1" (by decide) (by decide)).1 (by decide)

/-- C7: in the text-scrape fallback a line is skipped when splitting on
runs of 2+ whitespace gives fewer than 3 segments or when no segment after
the first parses as a number; the line `CO2  -393.5  213.8  -394.4` yields
structure `CO2`, enthalpy_of_formation_298K `-393.5`, entropy_298K
`213.8` and gibbs_free_energy_298K `-394.4`. -/
theorem c7_scrape_fallback :
    (∀ ln : String, (splitRuns2 (pyStrip ln.data)).length < 3 →
      scrapeLine ln = none) ∧
    (∀ ln : String, scrapeNums (splitRuns2 (pyStrip ln.data)) = [] →
      scrapeLine ln = none) ∧
    scrapeLine "CO2  -393.5  213.8  -394.4" =
      some [("common_name", .str ""), ("structure", .str "CO2"),
        ("phase", .str ""), ("enthalpy_of_formation_0K", .str ""),
        ("enthalpy_of_formation_298K", .num ⟨-3935, 1⟩),
        ("entropy_298K", .num ⟨2138, 1⟩),
        ("gibbs_free_energy_298K", .num ⟨-3944, 1⟩),
        ("uncertainty_value", .str ""), ("molecular_mass", .str ""),
        ("molecular_mass_uncertainty", .str ""), ("cas_rn", .str ""),
        ("relative_rank", .str "")] ∧
    Dec.toRat ⟨-3935, 1⟩ = -393.5 ∧ Dec.toRat ⟨2138, 1⟩ = 213.8 ∧
    Dec.toRat ⟨-3944, 1⟩ = -394.4 := by
  refine ⟨?_, ?_, by decide, ?_, ?_, ?_⟩
  · intro ln h
    simp [scrapeLine, h]
  · intro ln h
    by_cases h3 : (splitRuns2 (pyStrip ln.data)).length < 3
    · simp [scrapeLine, h3]
    · simp [scrapeLine, h3, h]
  all_goals norm_num [Dec.toRat, pow10]

/-- C7 witness: the two skip rules at a line with only one 2+-whitespace
segment row and at a line with three segments but no numeric one. -/
theorem c7_scrape_fallback_witness :
    scrapeLine "CO2 -393.5" = none ∧ scrapeLine "a  b  c" = none :=
  ⟨c7_scrape_fallback.1 "CO2 -393.5" (by decide),
   c7_scrape_fallback.2.1 "a  b  c" (by decide)⟩

/-- C8: a table whose header row has no cell matching the formula synonym
set (contains `formula`, or equals `species` or `name` after
normalization) produces zero records — the table is rejected in full. -/
theorem c8_no_formula_column_rejects_table :
    ∀ (header : List String) (rows : List (List String)),
      (∀ c ∈ header, isFormulaHeader (normalizeHeader c) = false) →
      rowsToRecords (header :: rows) = [] := by
  intro header rows h
  have hf : (findColumns header).formula = none := by
    simp only [findColumns]
    refine findIdxO_eq_none ?_
    intro a ha
    rcases List.mem_map.mp ha with ⟨c, hc, rfl⟩
    exact h c hc
  simp [rowsToRecords, hf]

/-- C8 witness: a two-column table whose header has an enthalpy column but
no formula synonym yields no records, though its data row is non-blank. -/
theorem c8_no_formula_column_rejects_table_witness :
    rowsToRecords [["x", "Enthalpy (kJ/mol)"], ["CO2", "-393.5"]] = [] :=
  c8_no_formula_column_rejects_table ["x", "Enthalpy (kJ/mol)"]
    [["CO2", "-393.5"]] (by decide)

/-- C10: in the text-scrape fallback the enthalpy slot is
`_safe_float(nums[0]) or ""`, so a first numeric segment that parses to
zero is emitted as the empty-value sentinel instead of the number, while
any non-zero value is emitted as that number. -/
theorem c10_zero_enthalpy_sentinel :
    ∀ (ln : String) r, scrapeLine ln = some r →
      ∀ p, (scrapeNums (splitRuns2 (pyStrip ln.data))).head? = some p →
        ∀ d, pdfSafeFloatS p = some d →
          r.lookup "enthalpy_of_formation_298K" =
            some (if d.num = 0 then JVal.str "" else JVal.num d) := by
  intro ln r h p hp d hd
  simp only [scrapeLine] at h
  by_cases h3 : (splitRuns2 (pyStrip ln.data)).length < 3
  · rw [if_pos h3] at h; cases h
  · rw [if_neg h3] at h
    by_cases hn : (scrapeNums (splitRuns2 (pyStrip ln.data))).isEmpty
    · rw [if_pos (by simp [hn])] at h; cases h
    · rw [if_neg (by simp [hn])] at h
      rcases Option.some_inj.mp h with rfl
      simp [scrapeRecord, List.lookup, hp, hd]

/-- C10 witness: the line `H2O  0.0  188.8` has first numeric segment
`0.0`, and its emitted enthalpy_of_formation_298K is the sentinel. -/
theorem c10_zero_enthalpy_sentinel_witness :
    ((scrapeLine "H2O  0.0  188.8").getD []).lookup "enthalpy_of_formation_298K" =
      some (JVal.str "") := by
  have h := c10_zero_enthalpy_sentinel "H2O  0.0  188.8"
    ((scrapeLine "H2O  0.0  188.8").getD []) (by decide) "0.0" (by decide)
    ⟨0, 1⟩ (by decide)
  simpa using h

end Reactyl
